import Mathlib

/-!
Verification of the M5HeadBand LED controller core (M5HeadBand.ino).

The development shallowly embeds the algorithmic core of the program:
fixed-point colorimetry primitives (sine/gamma tables), the dual-buffer
pattern transition engine, the audio beat and BPM estimator, and the
leader/follower LED sync protocol.  C integer arithmetic is modelled with
Nat/Int (with explicit truncating division where the code shifts or
divides); C float arithmetic is modelled with Rat; calls to random(n) are
modelled as an extra input reduced modulo n; the wall clock is an explicit
Nat parameter.
-/

set_option maxRecDepth 16000

namespace M5HeadBand

/-! ## Lookup tables (gammaTable, sineTable, flagTable) -/

/-- Gamma correction table, transcribed from M5HeadBand.ino lines 181-199
(267 entries as printed in the source; only indices 0..255 are ever used). -/
def gammaTable : List ℕ := [
    0,  0,  0,  0,  0,  0,  0,  0,  0,  0,  0,  0,  0,  0,  0,  0,
    0,  0,  0,  0,  0,  0,  0,  0,  0,  0,  0,  0,  1,  1,  1,  1,
    1,  1,  1,  1,  1,  1,  1,  1,  1,  2,  2,  2,  2,  2,  2,  2,
    2,  3,  3,  3,  3,  3,  3,  3,  4,  4,  4,  4,  4,  5,  5,  5,
    5,  6,  6,  6,  6,  7,  7,  7,  7,  8,  8,  8,  9,  9,  9, 10,
   10, 10, 11, 11, 11, 12, 12, 13, 13, 13, 14, 14, 15, 15, 16, 16,
   17, 17, 18, 18, 19, 19, 20, 20, 21, 21, 22, 22, 23, 24, 24, 25,
   25, 26, 27, 27, 28, 29, 29, 30, 31, 31, 32, 33, 33, 34, 35, 35,
   36, 37, 38, 38, 39, 40, 41, 41, 42, 43, 44, 45, 46, 46, 47, 48,
   49, 50, 51, 52, 53, 54, 55, 56, 57, 58, 59, 60, 61, 62, 63, 64,
   65, 66, 67, 68, 69, 70, 72, 73, 74, 75, 76, 77, 79, 80, 81, 82,
   84, 85, 86, 87, 89, 90, 91, 93, 94, 95, 97, 98, 99,101,102,104,
  105,107,108,110,111,113,114,116,117,119,120,122,124,125,127,129,
  130,132,134,135,137,139,141,142,144,146,148,150,151,153,155,157,
  159,161,163,165,167,169,171,173,175,177,179,181,183,185,187,190,
  192,194,196,198,201,203,205,208,210,212,215,217,220,222,225,227,
  230,232,235,237,240,243,245,248,251,253,255]

/-- applyGamma from M5HeadBand.ino lines 201-203: table lookup. -/
def applyGamma (x : ℕ) : ℕ := gammaTable.getD x 0

/-- Quarter wave sine table (181 entries, half-degree units), transcribed
from M5HeadBand.ino lines 241-254. -/
def sineTable : List ℤ := [
    0,  1,  2,  3,  5,  6,  7,  8,  9, 10, 11, 12, 13, 15, 16, 17,
   18, 19, 20, 21, 22, 23, 24, 25, 27, 28, 29, 30, 31, 32, 33, 34,
   35, 36, 37, 38, 39, 40, 42, 43, 44, 45, 46, 47, 48, 49, 50, 51,
   52, 53, 54, 55, 56, 57, 58, 59, 60, 61, 62, 63, 64, 65, 66, 67,
   67, 68, 69, 70, 71, 72, 73, 74, 75, 76, 77, 77, 78, 79, 80, 81,
   82, 83, 83, 84, 85, 86, 87, 88, 88, 89, 90, 91, 92, 92, 93, 94,
   95, 95, 96, 97, 97, 98, 99,100,100,101,102,102,103,104,104,105,
  105,106,107,107,108,108,109,110,110,111,111,112,112,113,113,114,
  114,115,115,116,116,117,117,117,118,118,119,119,120,120,120,121,
  121,121,122,122,122,123,123,123,123,124,124,124,124,125,125,125,
  125,125,126,126,126,126,126,126,126,127,127,127,127,127,127,127,
  127,127,127,127,127]

/-- fixSin from M5HeadBand.ino lines 256-264.  The C sequence
`angle %= 720; if (angle < 0) angle += 720;` is exactly `Int.emod 720`. -/
def fixSin (angle : ℤ) : ℤ :=
  let a := angle % 720
  if a ≤ 360 then
    sineTable.getD (if a ≤ 180 then a else 360 - a).toNat 0
  else
    -(sineTable.getD (if a ≤ 540 then a - 360 else 720 - a).toNat 0)

/-- fixCos from M5HeadBand.ino lines 266-274. -/
def fixCos (angle : ℤ) : ℤ :=
  let a := angle % 720
  if a ≤ 360 then
    (if a ≤ 180 then sineTable.getD (180 - a).toNat 0
     else -(sineTable.getD (a - 180).toNat 0))
  else
    (if a ≤ 540 then -(sineTable.getD (540 - a).toNat 0)
     else sineTable.getD (a - 540).toNat 0)

/-! ## Pattern engine compositing (updatePatterns, renderAlpha00) -/

/-- Alpha mask produced by renderAlpha00 (M5HeadBand.ino lines 387-390):
a uniform fade level 255 * tCounter / transitionTime for every LED. -/
def renderAlpha00 (tCounter transitionTime : ℕ) : ℕ :=
  255 * tCounter / transitionTime

/-- One channel of the transition compositing step in updatePatterns
(M5HeadBand.ino lines 462-467): alpha = mask + 1, inv = 257 - alpha, and
out = gammaTable[(front * alpha + back * inv) >> 8]. -/
def compositeChannel (front back mask : ℕ) : ℕ :=
  applyGamma ((front * (mask + 1) + back * (257 - (mask + 1))) / 256)

/-- One channel of the non-transition path in updatePatterns
(M5HeadBand.ino lines 474-478): out = gammaTable[back]. -/
def passThroughChannel (back : ℕ) : ℕ := applyGamma back

/-- Bookkeeping state of the transition controller: back image index
(0 or 1), effect ids per slot (slots 0 and 1 are the image buffers, slot 2
the alpha transition), the fxVars[i][0] init sentinels, the transition
counter and the transition duration (globals of M5HeadBand.ino
lines 53-59). -/
structure PatternState where
  backImgIdx : ℕ
  fxIdx : ℕ → ℕ
  fxVars0 : ℕ → ℤ
  tCounter : ℤ
  transitionTime : ℤ

/-- Transition bookkeeping tail of updatePatterns (M5HeadBand.ino lines
484-498).  The random(n) draws are modelled as extra inputs reduced mod n:
rFx for random(4) (effect count), rAlpha for random(3) (alpha count),
rDur for random(30,181) = 30 + rDur mod 151, rHold for random(240). -/
def updatePatternsCounter (s : PatternState) (rFx rAlpha rDur rHold : ℕ) : PatternState :=
  let frontImgIdx := 1 - s.backImgIdx
  let t := s.tCounter + 1
  if t = 0 then
    { s with
      tCounter := 0,
      fxIdx := fun i => if i = frontImgIdx then rFx % 4
               else if i = 2 then rAlpha % 3 else s.fxIdx i,
      transitionTime := 30 + (rDur % 151 : ℕ),
      fxVars0 := fun i => if i = frontImgIdx ∨ i = 2 then 0 else s.fxVars0 i }
  else if s.transitionTime ≤ t then
    { s with
      tCounter := -120 - (rHold % 240 : ℕ),
      fxIdx := fun i => if i = s.backImgIdx then s.fxIdx frontImgIdx else s.fxIdx i,
      backImgIdx := frontImgIdx }
  else
    { s with tCounter := t }

/-! ## Node modes, button events and the follower flag (C2) -/

/-- NodeMode enum (M5HeadBand.ino lines 90-95). -/
inductive NodeMode
  | normal
  | music
  | normalLeader
  | musicLeader
deriving DecidableEq

/-- Whether a mode is one of the two Leader variants. -/
def isLeaderMode : NodeMode → Bool
  | .normalLeader => true
  | .musicLeader => true
  | _ => false

/-- The mode/follow-flag slice of the global state: currentMode and
leaderDataActive (M5HeadBand.ino lines 107-109). -/
structure NodeState where
  mode : NodeMode
  leaderDataActive : Bool
deriving DecidableEq

/-- External events that mutate the mode/follow-flag slice: button presses
(handleButtons), arrival of a well-sized sync fragment (onDataReceived) and
the 8 s leader timeout (loop lines 977-983). -/
inductive NodeEvent
  | shortPress
  | longPress
  | recvFragment
  | leaderTimeout
deriving DecidableEq

/-- Short-press mode toggle (handleButtons, M5HeadBand.ino lines 894-901). -/
def shortPressMode : NodeMode → NodeMode
  | .normal => .music
  | .music => .normal
  | .normalLeader => .musicLeader
  | .musicLeader => .normalLeader

/-- Long-press mode toggle (handleButtons, M5HeadBand.ino lines 882-892). -/
def longPressMode : NodeMode → NodeMode
  | .normal => .normalLeader
  | .music => .musicLeader
  | .normalLeader => .normal
  | .musicLeader => .music

/-- One step of the mode/follow-flag state machine.  recvFragment models
onDataReceived lines 728-741: in a Leader mode the handler returns before
touching any state; otherwise it sets leaderDataActive.  leaderTimeout
models the loop timeout branch clearing leaderDataActive. -/
def nodeStep (s : NodeState) : NodeEvent → NodeState
  | .shortPress => { s with mode := shortPressMode s.mode }
  | .longPress => { s with mode := longPressMode s.mode }
  | .recvFragment => if isLeaderMode s.mode then s else { s with leaderDataActive := true }
  | .leaderTimeout => { s with leaderDataActive := false }

/-- Run a sequence of events from a state. -/
def nodeRun (s : NodeState) (es : List NodeEvent) : NodeState := es.foldl nodeStep s

/-- Boot state: MODE_NORMAL with leaderDataActive false (lines 107-109). -/
def initialNodeState : NodeState := ⟨.normal, false⟩

/-- The claimed invariant: the follow flag is never set in a Leader mode. -/
def leaderFollowInv (s : NodeState) : Prop :=
  isLeaderMode s.mode = true → s.leaderDataActive = false

/-! ## Sync protocol: fragments, follower reconstruction, broadcast (C3, C10) -/

/-- An RGB triplet (one CRGB entry). -/
structure RGB where
  r : ℕ
  g : ℕ
  b : ℕ

/-- LEDSync wire message (M5HeadBand.ino lines 98-104); the 149-byte rgbData
array is modelled as a byte function. -/
structure LEDSync where
  startIndex : ℕ
  count : ℕ
  sequenceNum : ℕ
  brightness : ℕ
  rgbData : ℕ → ℕ

/-- Follower-visible state touched by onDataReceived: node mode, follow
flag, rejoin bookkeeping, global brightness, the LED display buffer, and a
counter of FastLED.show() flushes. -/
structure FollowerState where
  mode : NodeMode
  leaderDataActive : Bool
  rejoinMode : Bool
  rejoinAttempts : ℕ
  brightness : ℕ
  leds : ℕ → RGB
  flushCount : ℕ
  lastLeaderMessage : ℕ
  lastCompleteFrame : ℕ

/-- The payload write loop of onDataReceived (lines 754-762): for
i = 0 .. n-1 write rgbData[3i .. 3i+2] to LED startIndex + i, bounds-checked
against NUM_LEDS = 200. -/
def writeFragment (msg : LEDSync) (leds : ℕ → RGB) : ℕ → ℕ → RGB
  | 0 => leds
  | n + 1 =>
    let prev := writeFragment msg leds n
    if msg.startIndex + n < 200 then
      fun j => if j = msg.startIndex + n then
        ⟨msg.rgbData (n * 3), msg.rgbData (n * 3 + 1), msg.rgbData (n * 3 + 2)⟩
      else prev j
    else prev

/-- onDataReceived (M5HeadBand.ino lines 725-768) for a well-sized packet
(the len != sizeof early return silently discards malformed packets and is
outside this model).  In a Leader mode the handler returns untouched;
otherwise it refreshes lastLeaderMessage, sets the follow flag, clears
rejoin bookkeeping, applies the brightness immediately, writes the payload,
and flushes (FastLED.show, counted by flushCount) when
startIndex + count reaches NUM_LEDS. -/
def onDataReceived (s : FollowerState) (msg : LEDSync) (now : ℕ) : FollowerState :=
  if isLeaderMode s.mode then s
  else
    let s1 : FollowerState :=
      { s with
        lastLeaderMessage := now
        leaderDataActive := true
        rejoinMode := false
        rejoinAttempts := if s.rejoinMode then 0 else s.rejoinAttempts
        brightness := msg.brightness
        leds := writeFragment msg s.leds (min msg.count 49) }
    if 200 ≤ msg.startIndex + msg.count then
      { s1 with flushCount := s1.flushCount + 1, lastCompleteFrame := now }
    else s1

/-- One fragment built by broadcastLEDData (lines 803-814): start position,
count = min(LEDS_PER_PACKET, NUM_LEDS - startIdx), the shared sequence
number, the current global brightness, and the packed RGB payload. -/
def broadcastFragment (leds : ℕ → RGB) (bright seq startIdx : ℕ) : LEDSync :=
  { startIndex := startIdx
    count := min 49 (200 - startIdx)
    sequenceNum := seq
    brightness := bright
    rgbData := fun k =>
      if k % 3 = 0 then (leds (startIdx + k / 3)).r
      else if k % 3 = 1 then (leds (startIdx + k / 3)).g
      else (leds (startIdx + k / 3)).b }

/-- The chunking loop of broadcastLEDData: startIdx = 0, 49, 98, ... while
startIdx < NUM_LEDS = 200. -/
def broadcastChunks (leds : ℕ → RGB) (bright seq startIdx : ℕ) : List LEDSync :=
  if startIdx < 200 then
    broadcastFragment leds bright seq startIdx ::
      broadcastChunks leds bright seq (startIdx + 49)
  else []
termination_by 200 - startIdx
decreasing_by omega

/-- broadcastLEDData (lines 796-819): the fragment list of one invocation
(all sharing the sequence number seq) paired with the post-increment of the
static uint8_t sequence counter. -/
def broadcastLEDData (leds : ℕ → RGB) (bright seq : ℕ) : List LEDSync × ℕ :=
  (broadcastChunks leds bright seq 0, (seq + 1) % 256)

/-- A concrete boot-like follower state (used to exercise the handler). -/
def followerBoot : FollowerState where
  mode := NodeMode.normal
  leaderDataActive := false
  rejoinMode := false
  rejoinAttempts := 0
  brightness := 25
  leds := fun _ => ⟨0, 0, 0⟩
  flushCount := 0
  lastLeaderMessage := 0
  lastCompleteFrame := 0

/-! ## Audio reactivity engine (detectAudioFrame, updateBPM, updateAudioLevel) -/

/-- The Arduino constrain(x, lo, hi). -/
def constrain (x lo hi : ℚ) : ℚ := max lo (min x hi)

/-- The audio-engine slice of the global state (M5HeadBand.ino
lines 114-143).  Float globals are modelled in ℚ; the beatTimes and
beatIntervals arrays with their counters are modelled as lists. -/
structure AudioState where
  soundMin : ℚ
  soundMax : ℚ
  musicLevel : ℚ
  audioLevel : ℚ
  prevAbove : Bool
  beatDetected : Bool
  beatTimes : List ℕ
  beatIntervals : List ℕ
  lastBeatTime : ℕ
  currentBPM : ℚ
  lastBpmMillis : ℕ
  lastMusicDetectedTime : ℕ
  audioDetected : Bool
  noiseFloor : ℚ
  peakLevel : ℚ
  brightnessEnvelope : ℚ
  lastBrightnessUpdate : ℕ
  musicBrightness : ℕ

/-- The boot values of the audio globals (M5HeadBand.ino lines 115-143). -/
def audioBoot : AudioState where
  soundMin := 1
  soundMax := 0
  musicLevel := 0
  audioLevel := 0
  prevAbove := false
  beatDetected := false
  beatTimes := []
  beatIntervals := []
  lastBeatTime := 0
  currentBPM := 0
  lastBpmMillis := 0
  lastMusicDetectedTime := 0
  audioDetected := true
  noiseFloor := 1/100
  peakLevel := 1/10
  brightnessEnvelope := 25
  lastBrightnessUpdate := 0
  musicBrightness := 25

/-- Bounded-FIFO push used for beatTimes and beatIntervals: append while
below capacity 50, otherwise memmove-evict the oldest entry. -/
def pushFifo (l : List ℕ) (x : ℕ) : List ℕ :=
  if l.length < 50 then l ++ [x] else l.tail ++ [x]

/-- The beat edge-detection tail of detectAudioFrame (M5HeadBand.ino lines
574-601), given the computed music level, the beat threshold and the
millis() timestamp t.  An upward crossing appends a timestamp, conditionally
records the inter-beat interval (prefiltered to [150, 2000] ms), and sets
beatDetected; a level at or below threshold clears beatDetected; otherwise
beatDetected is left unchanged.  prevAbove always becomes this tick's
comparison result. -/
def beatStep (s : AudioState) (level threshold : ℚ) (t : ℕ) : AudioState :=
  if threshold < level ∧ s.prevAbove = false then
    { s with
      beatTimes := pushFifo s.beatTimes t
      beatIntervals :=
        if 0 < s.lastBeatTime then
          if 150 ≤ t - s.lastBeatTime ∧ t - s.lastBeatTime ≤ 2000 then
            pushFifo s.beatIntervals (t - s.lastBeatTime)
          else s.beatIntervals
        else s.beatIntervals
      lastBeatTime := t
      beatDetected := true
      prevAbove := true }
  else if ¬ threshold < level then
    { s with beatDetected := false, prevAbove := false }
  else
    { s with prevAbove := true }

/-- detectAudioFrame (M5HeadBand.ino lines 513-602).  The mic capture is an
Option: none models a failed M5.Mic.record call, on which the function
returns before touching any state (only a rate-limited warning is printed).
On success: mean absolute amplitude, slow exponential min/max trackers,
high-volume range adaptation, normalization into [0,1], then the beat edge
step. -/
def detectAudioFrame (s : AudioState) (mic : Option (List ℤ)) (t : ℕ) : AudioState :=
  match mic with
  | none => s
  | some buf =>
    let raw : ℚ := ((buf.map Int.natAbs).sum : ℚ) / 240 / 32767
    let soundMin1 := min raw ((995/1000) * s.soundMin + (5/1000) * raw)
    let soundMax1 := max raw ((995/1000) * s.soundMax + (5/1000) * raw)
    let dynamicRange := soundMax1 - soundMin1
    let highVolumeEnvironment := (7/10 : ℚ) < soundMin1 ∨ dynamicRange < 8/100
    let adaptedMin := if highVolumeEnvironment ∧ dynamicRange < 8/100 then
        max 0 (soundMin1 - ((8/100) - dynamicRange) * (1/2)) else soundMin1
    let adaptedMax := if highVolumeEnvironment ∧ dynamicRange < 8/100 then
        min 1 (soundMax1 + ((8/100) - dynamicRange) * (1/2)) else soundMax1
    let beatThreshold : ℚ := if highVolumeEnvironment then 35/100 else 6/10
    let musicLevel1 :=
      constrain ((raw - adaptedMin) / (adaptedMax - adaptedMin + 1/1000000)) 0 1
    beatStep
      { s with
        soundMin := soundMin1, soundMax := soundMax1,
        musicLevel := musicLevel1, audioLevel := musicLevel1 }
      musicLevel1 beatThreshold t

/-- Insertion of a value into a sorted list.  getMedianInterval bubble
sorts a copy of the interval buffer; any comparison sort produces the same
sorted value sequence, embedded here as insertion sort. -/
def insertSorted (x : ℕ) : List ℕ → List ℕ
  | [] => [x]
  | y :: ys => if x ≤ y then x :: y :: ys else y :: insertSorted x ys

/-- The sorted copy of the interval buffer (getMedianInterval
lines 607-618). -/
def sortIntervals (l : List ℕ) : List ℕ := l.foldr insertSorted []

/-- getMedianInterval (M5HeadBand.ino lines 604-625): 0 on an empty buffer,
else the middle sorted interval, or for an even count the truncated mean of
the two middle ones. -/
def getMedianInterval (l : List ℕ) : ℕ :=
  if l.length = 0 then 0
  else
    if l.length % 2 = 0 then
      ((sortIntervals l).getD (l.length / 2 - 1) 0 + (sortIntervals l).getD (l.length / 2) 0) / 2
    else (sortIntervals l).getD (l.length / 2) 0

/-- Number of recorded beat timestamps inside the trailing 5000 ms window
(updateBPM lines 630-634). -/
def bpmWindowCount (beatTimes : List ℕ) (now : ℕ) : ℕ :=
  (beatTimes.filter (fun t => now - 5000 ≤ t)).length

/-- The freshly computed window BPM estimate (updateBPM lines 636-644):
60000/median if at least 3 intervals are recorded, else the coarse estimate
count * (60000/5000) if at least 2 beats fell in the window, else 0. -/
def bpmWindowEstimate (s : AudioState) (now : ℕ) : ℚ :=
  if 3 ≤ s.beatIntervals.length then
    if 0 < getMedianInterval s.beatIntervals then
      60000 / (getMedianInterval s.beatIntervals : ℚ)
    else 0
  else if 2 ≤ bpmWindowCount s.beatTimes now then
    (bpmWindowCount s.beatTimes now : ℚ) * (60000 / 5000)
  else 0

/-- updateBPM (M5HeadBand.ino lines 627-677).  Runs only when 5000 ms have
elapsed since lastBpmMillis (monotone uint32 clock); blends the window
estimate into currentBPM with weights 0.9/0.1 (taken directly on bootstrap,
kept unchanged on a zero estimate), maintains the sticky audioDetected flag
with its 20 s decay (which also zeroes currentBPM), advances the window
anchor by one window and clears the beat counter. -/
def updateBPM (s : AudioState) (now : ℕ) : AudioState :=
  if 5000 ≤ now - s.lastBpmMillis then
    let bpm := bpmWindowEstimate s now
    let cnt := bpmWindowCount s.beatTimes now
    let c1 := if s.currentBPM = 0 ∨ s.currentBPM < 10 then bpm
      else if 0 < bpm then s.currentBPM * (9/10) + bpm * (1/10)
      else s.currentBPM
    if (2 ≤ cnt ∧ 30 ≤ c1 ∧ c1 ≤ 300) ∨ (1 ≤ cnt ∧ 30 ≤ c1 ∧ c1 ≤ 300) then
      { s with
        currentBPM := c1, lastMusicDetectedTime := now, audioDetected := true,
        lastBpmMillis := s.lastBpmMillis + 5000, beatTimes := [] }
    else if 20000 < now - s.lastMusicDetectedTime then
      { s with
        currentBPM := 0, audioDetected := false,
        lastBpmMillis := s.lastBpmMillis + 5000, beatTimes := [] }
    else
      { s with
        currentBPM := c1,
        lastBpmMillis := s.lastBpmMillis + 5000, beatTimes := [] }
  else s

/-- updateAudioLevel (M5HeadBand.ino lines 679-713): audio capture and BPM
update, then the unconditional noise-floor/peak exponential trackers, the
excitement normalization with its power curve, and the attack/decay
brightness envelope.  decayFactor stands for exp(-timeDelta / 0.25),
supplied as an input. -/
def updateAudioLevel (s : AudioState) (mic : Option (List ℤ)) (now : ℕ)
    (decayFactor : ℚ) : AudioState :=
  let s2 := updateBPM (detectAudioFrame s mic now) now
  let noiseFloor1 := s2.noiseFloor * (7/10) + s2.audioLevel * (3/10)
  let peakLevel1 := s2.peakLevel * (1/2) + s2.audioLevel * (1/2)
  let range := max (peakLevel1 - noiseFloor1) (1/100)
  let normalizedLevel := constrain ((s2.audioLevel - noiseFloor1) / range) 0 1
  let targetBrightness : ℚ :=
    if normalizedLevel < 35/100 then 1
    else 1 + ((normalizedLevel - 35/100) / (65/100)) ^ 2 * 24
  let env := if s2.brightnessEnvelope < targetBrightness then targetBrightness
    else targetBrightness + (s2.brightnessEnvelope - targetBrightness) * decayFactor
  { s2 with
    noiseFloor := noiseFloor1, peakLevel := peakLevel1,
    brightnessEnvelope := env, lastBrightnessUpdate := now,
    musicBrightness := env.floor.toNat }

/-! ## WavyFlag palette indexing (renderEffect03, C9) -/

/-- Flag palette table (M5HeadBand.ino lines 336-344): 20 RGB triples =
60 bytes (7 blue/white, 7 red/white, 6 white/red). -/
def flagTable : List ℕ := [
    0,   0, 100,   255, 255, 255,     0,   0, 100,   255, 255, 255,
    0,   0, 100,   255, 255, 255,     0,   0, 100,
  160,   0,   0,   255, 255, 255,   160,   0,   0,   255, 255, 255,
  160,   0,   0,   255, 255, 255,   160,   0,   0,
  255, 255, 255,   160,   0,   0,   255, 255, 255,   160,   0,   0,
  255, 255, 255,   160,   0,   0]

/-- The wave term of renderEffect03 for LED i:
fxVars[3] + fixCos(fxVars[4] + fxVars[1] * i / NUM_LEDS), with the state
entries (wavyness fxVars[1], puckeryness fxVars[3], phase fxVars[4])
nonnegative as initialized. -/
def flagWaveTerm (wavy pucker phase i : ℕ) : ℤ :=
  (pucker : ℤ) + fixCos ((phase + wavy * i / 200 : ℕ) : ℤ)

/-- The arclength normalizer of renderEffect03 (lines 358-360): the wave
terms summed over LEDs 0..198 (the loop runs i < NUM_LEDS - 1). -/
def flagSum (wavy pucker phase : ℕ) : ℤ :=
  ((List.range 199).map (flagWaveTerm wavy pucker phase)).sum

/-- The running arclength s used at LED i (lines 363-375): the wave terms of
all earlier LEDs (s is accumulated after each LED is emitted). -/
def flagPartial (wavy pucker phase i : ℕ) : ℤ :=
  ((List.range i).map (flagWaveTerm wavy pucker phase)).sum

/-- The palette byte indices of renderEffect03 at LED i (lines 364-366):
x = 256 * (20 - 1) * s / sum, idx1 = (x >> 8) * 3, idx2 = ((x >> 8) + 1) * 3;
the generator then reads flagTable at idx1, idx1+1, idx1+2 and idx2, idx2+1,
idx2+2. -/
def flagIndices (wavy pucker phase i : ℕ) : ℤ × ℤ :=
  let x := 256 * 19 * flagPartial wavy pucker phase i / flagSum wavy pucker phase
  ((x / 256) * 3, (x / 256 + 1) * 3)

/-! ## Theorems -/

/-- Bounded form of the Pythagorean identity for the table trig, checked on
one full period. -/
theorem fixSin_sq_add_fixCos_sq_bounded :
    ∀ n : ℕ, n < 720 →
      (fixSin (n : ℤ)) ^ 2 + (fixCos (n : ℤ)) ^ 2 ≤ 127 ^ 2 + 207 ∧
      (127 : ℤ) ^ 2 - 84 ≤ (fixSin (n : ℤ)) ^ 2 + (fixCos (n : ℤ)) ^ 2 := by
  decide

/-- fixSin only depends on the angle through its normalization into [0,720). -/
theorem fixSin_emod (a : ℤ) : fixSin a = fixSin (a % 720) := by
  have h : (a % 720) % 720 = a % 720 := Int.emod_emod_of_dvd a dvd_rfl
  unfold fixSin
  rw [h]

/-- fixCos only depends on the angle through its normalization into [0,720). -/
theorem fixCos_emod (a : ℤ) : fixCos a = fixCos (a % 720) := by
  have h : (a % 720) % 720 = a % 720 := Int.emod_emod_of_dvd a dvd_rfl
  unfold fixCos
  rw [h]

/-- The normalized angle, as a natural number below 720. -/
theorem fixSin_eq_natAngle (a : ℤ) :
    ∃ n : ℕ, n < 720 ∧ fixSin a = fixSin (n : ℤ) ∧ fixCos a = fixCos (n : ℤ) := by
  refine ⟨(a % 720).toNat, ?_, ?_, ?_⟩
  · have h1 : a % 720 < 720 := Int.emod_lt_of_pos a (by norm_num)
    have h0 : 0 ≤ a % 720 := Int.emod_nonneg a (by norm_num)
    omega
  · rw [fixSin_emod a]
    congr 1
    exact (Int.toNat_of_nonneg (Int.emod_nonneg a (by norm_num))).symm
  · rw [fixCos_emod a]
    congr 1
    exact (Int.toNat_of_nonneg (Int.emod_nonneg a (by norm_num))).symm

/-- Quadrant derivation of fixSin and fixCos from the quarter-wave table,
checked on one full period: mirror in the second quadrant, sign flip in the
third and fourth, and fixCos as a 180-half-degree phase shift of fixSin. -/
theorem fix_trig_quadrants :
    (∀ m : ℕ, m ≤ 180 → fixSin (m : ℤ) = sineTable.getD m 0) ∧
    (∀ m : ℕ, m ≤ 180 → fixSin ((180 + m : ℕ) : ℤ) = sineTable.getD (180 - m) 0) ∧
    (∀ m : ℕ, m ≤ 180 → fixSin ((360 + m : ℕ) : ℤ) = -sineTable.getD m 0) ∧
    (∀ m : ℕ, m < 180 → fixSin ((540 + m : ℕ) : ℤ) = -sineTable.getD (180 - m) 0) ∧
    (∀ n : ℕ, n < 720 → fixCos (n : ℤ) = fixSin ((n : ℤ) + 180)) := by
  refine ⟨?_, ?_, ?_, ?_, ?_⟩ <;> decide

/-- fixCos is fixSin phase-shifted by 180 half-degree units, for every
integer angle. -/
theorem fixCos_eq_fixSin_shift (a : ℤ) : fixCos a = fixSin (a + 180) := by
  have h0 : 0 ≤ a % 720 := Int.emod_nonneg a (by norm_num)
  have h1 : a % 720 < 720 := Int.emod_lt_of_pos a (by norm_num)
  have hcast : (((a % 720).toNat : ℕ) : ℤ) = a % 720 := Int.toNat_of_nonneg h0
  have hlt : (a % 720).toNat < 720 := by omega
  have step1 : fixCos a = fixCos (((a % 720).toNat : ℕ) : ℤ) := by
    rw [fixCos_emod a, hcast]
  have step2 : fixSin (a + 180) = fixSin ((((a % 720).toNat : ℕ) : ℤ) + 180) := by
    rw [fixSin_emod (a + 180), fixSin_emod ((((a % 720).toNat : ℕ) : ℤ) + 180)]
    congr 1
    omega
  rw [step1, step2]
  exact fix_trig_quadrants.2.2.2.2 _ hlt

/-- C7: for every integer angle a (half-degree units), fixSin(a)² + fixCos(a)²
equals the squared maximum amplitude 127² within integer rounding tolerance
(never more than 207 above nor 84 below 16129); both functions depend on the
angle only through its normalization into [0,720), which holds for negative
input as well; and both derive their values from the single 181-entry
quarter-wave table by mirroring in the second quadrant, sign flip in the
third and fourth, and (for fixCos) a 180-half-degree phase shift of fixSin. -/
theorem fixSin_fixCos_pythagorean_quadrant_derivation :
    (∀ a : ℤ, (fixSin a) ^ 2 + (fixCos a) ^ 2 ≤ 127 ^ 2 + 207 ∧
       (127 : ℤ) ^ 2 - 84 ≤ (fixSin a) ^ 2 + (fixCos a) ^ 2) ∧
    (∀ a : ℤ, fixSin a = fixSin (a % 720) ∧ fixCos a = fixCos (a % 720) ∧
       0 ≤ a % 720 ∧ a % 720 < 720) ∧
    (∀ m : ℕ, m ≤ 180 → fixSin (m : ℤ) = sineTable.getD m 0) ∧
    (∀ m : ℕ, m ≤ 180 → fixSin ((180 + m : ℕ) : ℤ) = sineTable.getD (180 - m) 0) ∧
    (∀ m : ℕ, m ≤ 180 → fixSin ((360 + m : ℕ) : ℤ) = -sineTable.getD m 0) ∧
    (∀ m : ℕ, m < 180 → fixSin ((540 + m : ℕ) : ℤ) = -sineTable.getD (180 - m) 0) ∧
    (∀ a : ℤ, fixCos a = fixSin (a + 180)) ∧
    sineTable.length = 181 := by
  obtain ⟨q1, q2, q3, q4, qCos⟩ := fix_trig_quadrants
  refine ⟨?_, ?_, q1, q2, q3, q4, ?_, by decide⟩
  · intro a
    obtain ⟨n, hn, hs, hc⟩ := fixSin_eq_natAngle a
    rw [hs, hc]
    exact fixSin_sq_add_fixCos_sq_bounded n hn
  · intro a
    exact ⟨fixSin_emod a, fixCos_emod a,
      Int.emod_nonneg a (by norm_num), Int.emod_lt_of_pos a (by norm_num)⟩
  · exact fixCos_eq_fixSin_shift

/-- Witness for C7 at angle 45 (quadrant hypotheses discharged at 45). -/
theorem fixSin_fixCos_pythagorean_quadrant_derivation_witness :
    ((fixSin 45) ^ 2 + (fixCos 45) ^ 2 ≤ 127 ^ 2 + 207) ∧
    (45 : ℕ) ≤ 180 ∧ fixSin ((45 : ℕ) : ℤ) = sineTable.getD 45 0 :=
  ⟨(fixSin_fixCos_pythagorean_quadrant_derivation.1 45).1, by decide,
   fixSin_fixCos_pythagorean_quadrant_derivation.2.2.1 45 (by decide)⟩

/-- Adjacent entries of the gamma table are nondecreasing (first 267). -/
theorem applyGamma_mono_step : ∀ a : ℕ, a < 266 → applyGamma a ≤ applyGamma (a + 1) := by
  decide

/-- The gamma table is monotone on its index range. -/
theorem applyGamma_mono : ∀ a b : ℕ, a ≤ b → b ≤ 266 → applyGamma a ≤ applyGamma b := by
  intro a b
  induction b with
  | zero =>
    intro hab _
    have ha : a = 0 := by omega
    simp [ha]
  | succ k ih =>
    intro hab hb
    rcases Nat.lt_or_ge a (k + 1) with h | h
    · have h1 : applyGamma a ≤ applyGamma k := ih (by omega) (by omega)
      have h2 : applyGamma k ≤ applyGamma (k + 1) := applyGamma_mono_step k (by omega)
      omega
    · have ha : a = k + 1 := by omega
      simp [ha]

/-- Over any window of 9 indices the gamma table rises by at most 22. -/
theorem applyGamma_window22 : ∀ a : ℕ, a < 256 → applyGamma (min (a + 9) 255) ≤ applyGamma a + 22 := by
  decide

/-- Gamma outputs of inputs at distance at most 9 (within 0..255) differ by
at most 22. -/
theorem applyGamma_close (x y : ℕ) (hx : x ≤ 255) (hy : y ≤ 255)
    (h1 : x ≤ y + 9) (h2 : y ≤ x + 9) :
    applyGamma x ≤ applyGamma y + 22 ∧ applyGamma y ≤ applyGamma x + 22 := by
  rcases le_total x y with h | h
  · have hxy : applyGamma x ≤ applyGamma y := applyGamma_mono x y h (by omega)
    have hmin : y ≤ min (x + 9) 255 := by omega
    have hmono : applyGamma y ≤ applyGamma (min (x + 9) 255) :=
      applyGamma_mono y (min (x + 9) 255) hmin (by omega)
    have hwin : applyGamma (min (x + 9) 255) ≤ applyGamma x + 22 :=
      applyGamma_window22 x (by omega)
    omega
  · have hxy : applyGamma y ≤ applyGamma x := applyGamma_mono y x h (by omega)
    have hmin : x ≤ min (y + 9) 255 := by omega
    have hmono : applyGamma x ≤ applyGamma (min (y + 9) 255) :=
      applyGamma_mono x (min (y + 9) 255) hmin (by omega)
    have hwin : applyGamma (min (y + 9) 255) ≤ applyGamma y + 22 :=
      applyGamma_window22 y (by omega)
    omega

/-- At the final fade tick the mask 255 * (t + 29) / (t + 30) lies in
[246, 253] for all transition durations t + 30 with t < 151. -/
theorem renderAlpha00_last_mask :
    ∀ t : ℕ, t < 151 →
      246 ≤ renderAlpha00 (t + 29) (t + 30) ∧ renderAlpha00 (t + 29) (t + 30) ≤ 253 := by
  decide

/-- The composited linear blend with a mask in [246, 253] lands within 9 of
the front value, and stays a valid table index. -/
theorem composite_blend_close (front back m : ℕ) (hf : front ≤ 255) (hb : back ≤ 255)
    (hm1 : 246 ≤ m) (hm2 : m ≤ 253) :
    (front * (m + 1) + back * (257 - (m + 1))) / 256 ≤ front + 9 ∧
    front ≤ (front * (m + 1) + back * (257 - (m + 1))) / 256 + 9 ∧
    (front * (m + 1) + back * (257 - (m + 1))) / 256 ≤ 255 := by
  have h257 : 257 - (m + 1) = 256 - m := by omega
  rw [h257]
  have hv1 : front * (m + 1) ≤ front * 254 := Nat.mul_le_mul_left front (by omega)
  have hv2 : back * (256 - m) ≤ 255 * 10 := Nat.mul_le_mul hb (by omega)
  have hv3 : front * 247 ≤ front * (m + 1) := Nat.mul_le_mul_left front (by omega)
  have hv4 : front * (m + 1) ≤ 255 * (m + 1) := Nat.mul_le_mul_right (m + 1) hf
  have hv5 : back * (256 - m) ≤ 255 * (256 - m) := Nat.mul_le_mul_right (256 - m) hb
  omega

/-- C5: per channel, at transition counter 0 the Fade mask is 0 and the
compositing formula gammaTable[(front*(alpha+1) + back*(256-alpha)) >> 8]
returns exactly the gamma-corrected back value; at counter duration-1 the
Fade mask is at least 246, and the output is within 22 gamma steps of the
gamma-corrected front value (the linear blend itself lands within 9 of
front); outside transitions the output is exactly gammaTable[back]. -/
theorem updatePatterns_composite_boundaries (T front back : ℕ)
    (hT1 : 30 ≤ T) (hT2 : T ≤ 180) (hf : front ≤ 255) (hb : back ≤ 255) :
    compositeChannel front back (renderAlpha00 0 T) = applyGamma back ∧
    compositeChannel front back (renderAlpha00 (T - 1) T) ≤ applyGamma front + 22 ∧
    applyGamma front ≤ compositeChannel front back (renderAlpha00 (T - 1) T) + 22 ∧
    passThroughChannel back = applyGamma back := by
  obtain ⟨t, rfl⟩ : ∃ t, T = t + 30 := ⟨T - 30, by omega⟩
  have ht : t < 151 := by omega
  refine ⟨?_, ?_⟩
  · have h0 : renderAlpha00 0 (t + 30) = 0 := by
      simp [renderAlpha00]
    rw [h0]
    unfold compositeChannel
    congr 1
    omega
  · have hlast : t + 30 - 1 = t + 29 := by omega
    rw [hlast]
    obtain ⟨hm1, hm2⟩ := renderAlpha00_last_mask t ht
    obtain ⟨hc1, hc2, hc3⟩ :=
      composite_blend_close front back (renderAlpha00 (t + 29) (t + 30)) hf hb hm1 hm2
    obtain ⟨hg1, hg2⟩ := applyGamma_close
      ((front * (renderAlpha00 (t + 29) (t + 30) + 1) +
        back * (257 - (renderAlpha00 (t + 29) (t + 30) + 1))) / 256) front hc3 hf hc1 hc2
    exact ⟨hg1, hg2, rfl⟩

/-- Witness for C5 at duration 30 with front 200 and back 17. -/
theorem updatePatterns_composite_boundaries_witness :
    (30 ≤ 30 ∧ 30 ≤ 180 ∧ 200 ≤ 255 ∧ 17 ≤ 255) ∧
    (compositeChannel 200 17 (renderAlpha00 0 30) = applyGamma 17 ∧
     compositeChannel 200 17 (renderAlpha00 (30 - 1) 30) ≤ applyGamma 200 + 22 ∧
     applyGamma 200 ≤ compositeChannel 200 17 (renderAlpha00 (30 - 1) 30) + 22 ∧
     passThroughChannel 17 = applyGamma 17) :=
  ⟨⟨by decide, by decide, by decide, by decide⟩,
   updatePatterns_composite_boundaries 30 200 17 (by decide) (by decide) (by decide) (by decide)⟩

/-- C4: on a tick whose incremented counter reaches the duration, the slot
that is BACK after the role swap holds the prior FRONT generator id, and the
controller re-enters HOLD with a negative counter of magnitude in [120, 360);
on a tick entering TRANSITIONING (counter increments to 0) the chosen
duration lies in [30, 180] ticks; and after every tick exactly one of HOLD
(counter negative) and TRANSITIONING (counter in [0, duration)) holds. -/
theorem updatePatterns_transition_lifecycle (s : PatternState) (rFx rAlpha rDur rHold : ℕ)
    (hback : s.backImgIdx ≤ 1)
    (hinv : s.tCounter < 0 ∨ (0 ≤ s.tCounter ∧ s.tCounter < s.transitionTime)) :
    ((s.tCounter + 1 ≠ 0 ∧ s.transitionTime ≤ s.tCounter + 1) →
      ((updatePatternsCounter s rFx rAlpha rDur rHold).fxIdx
          (updatePatternsCounter s rFx rAlpha rDur rHold).backImgIdx =
            s.fxIdx (1 - s.backImgIdx) ∧
       (updatePatternsCounter s rFx rAlpha rDur rHold).tCounter < 0 ∧
       120 ≤ -(updatePatternsCounter s rFx rAlpha rDur rHold).tCounter ∧
       -(updatePatternsCounter s rFx rAlpha rDur rHold).tCounter < 360)) ∧
    ((s.tCounter + 1 = 0) →
      (30 ≤ (updatePatternsCounter s rFx rAlpha rDur rHold).transitionTime ∧
       (updatePatternsCounter s rFx rAlpha rDur rHold).transitionTime ≤ 180 ∧
       (updatePatternsCounter s rFx rAlpha rDur rHold).tCounter = 0)) ∧
    (((updatePatternsCounter s rFx rAlpha rDur rHold).tCounter < 0 ∧
      ¬(0 ≤ (updatePatternsCounter s rFx rAlpha rDur rHold).tCounter ∧
        (updatePatternsCounter s rFx rAlpha rDur rHold).tCounter <
          (updatePatternsCounter s rFx rAlpha rDur rHold).transitionTime)) ∨
     (¬((updatePatternsCounter s rFx rAlpha rDur rHold).tCounter < 0) ∧
      0 ≤ (updatePatternsCounter s rFx rAlpha rDur rHold).tCounter ∧
      (updatePatternsCounter s rFx rAlpha rDur rHold).tCounter <
        (updatePatternsCounter s rFx rAlpha rDur rHold).transitionTime)) := by
  have hmodH : rHold % 240 < 240 := Nat.mod_lt _ (by norm_num)
  have hmodD : rDur % 151 < 151 := Nat.mod_lt _ (by norm_num)
  have hb01 : s.backImgIdx = 0 ∨ s.backImgIdx = 1 := by omega
  simp only [updatePatternsCounter]
  split_ifs with h0 hT
  · refine ⟨fun hc => absurd h0 hc.1, fun _ => ⟨?_, ?_, rfl⟩, Or.inr ⟨?_, ?_, ?_⟩⟩ <;>
      simp <;> omega
  · refine ⟨fun _ => ⟨?_, ?_, ?_, ?_⟩, fun hc => absurd hc h0, Or.inl ⟨?_, ?_⟩⟩
    · rcases hb01 with hb0 | hb0 <;> simp [hb0]
    · simp; omega
    · simp; omega
    · simp; omega
    · simp; omega
    · simp; omega
  · refine ⟨fun hc => absurd hc.2 hT, fun hc => absurd hc h0, ?_⟩
    rcases hinv with h | h
    · exact Or.inl ⟨by simp; omega, by simp; omega⟩
    · exact Or.inr ⟨by simp; omega, by simp; omega, by simp; omega⟩

/-- Witness for C4: a held state one tick before a transition start. -/
theorem updatePatterns_transition_lifecycle_witness :
    ({ backImgIdx := 0, fxIdx := fun _ => 1, fxVars0 := fun _ => 1,
       tCounter := -1, transitionTime := 0 : PatternState }.backImgIdx ≤ 1) ∧
    (((-1 : ℤ) + 1 = 0) →
      (30 ≤ (updatePatternsCounter
        { backImgIdx := 0, fxIdx := fun _ => 1, fxVars0 := fun _ => 1,
          tCounter := -1, transitionTime := 0 } 2 1 7 5).transitionTime ∧
       (updatePatternsCounter
        { backImgIdx := 0, fxIdx := fun _ => 1, fxVars0 := fun _ => 1,
          tCounter := -1, transitionTime := 0 } 2 1 7 5).transitionTime ≤ 180 ∧
       (updatePatternsCounter
        { backImgIdx := 0, fxIdx := fun _ => 1, fxVars0 := fun _ => 1,
          tCounter := -1, transitionTime := 0 } 2 1 7 5).tCounter = 0)) :=
  ⟨by norm_num,
   (updatePatterns_transition_lifecycle
     { backImgIdx := 0, fxIdx := fun _ => 1, fxVars0 := fun _ => 1,
       tCounter := -1, transitionTime := 0 } 2 1 7 5
     (by norm_num) (Or.inl (by norm_num))).2.1⟩

/-- C2 counterexample: from the boot state, receiving a sync fragment while
standalone and then long-pressing reaches NormalLeader mode with
leaderDataActive still true, refuting the claimed invariant on a reachable
state. -/
theorem follow_flag_survives_into_leader_mode :
    nodeRun initialNodeState [NodeEvent.recvFragment, NodeEvent.longPress] =
      { mode := NodeMode.normalLeader, leaderDataActive := true } ∧
    ¬ leaderFollowInv
      (nodeRun initialNodeState [NodeEvent.recvFragment, NodeEvent.longPress]) := by
  refine ⟨rfl, fun h => absurd (h rfl) (by decide)⟩

/-- C2 amended: the no-follow-while-Leader invariant is preserved by every
event except a long press (sync receptions in a Leader mode leave the whole
state unchanged), and the only transition that can break it is a long press
taken from a non-Leader state whose follow flag is already set. -/
theorem nodeStep_leaderFollowInv_characterization :
    (∀ (s : NodeState) (e : NodeEvent), leaderFollowInv s → e ≠ NodeEvent.longPress →
       leaderFollowInv (nodeStep s e)) ∧
    (∀ s : NodeState, isLeaderMode s.mode = true → nodeStep s NodeEvent.recvFragment = s) ∧
    (∀ s : NodeState, leaderFollowInv s → ¬ leaderFollowInv (nodeStep s NodeEvent.longPress) →
       isLeaderMode s.mode = false ∧ s.leaderDataActive = true) := by
  refine ⟨?_, ?_, ?_⟩
  · rintro ⟨m, b⟩ e hinv hne
    cases e <;> cases m <;> cases b <;>
      simp_all [nodeStep, leaderFollowInv, shortPressMode, longPressMode, isLeaderMode]
  · rintro ⟨m, b⟩ h
    cases m <;> simp_all [nodeStep, isLeaderMode]
  · rintro ⟨m, b⟩ hinv hbrk
    cases m <;> cases b <;>
      simp_all [nodeStep, leaderFollowInv, longPressMode, isLeaderMode]

/-- Witness for C2: a reception in standalone Music mode with the follow
flag already set keeps the invariant. -/
theorem nodeStep_leaderFollowInv_characterization_witness :
    leaderFollowInv { mode := NodeMode.music, leaderDataActive := true } ∧
    NodeEvent.recvFragment ≠ NodeEvent.longPress ∧
    leaderFollowInv
      (nodeStep { mode := NodeMode.music, leaderDataActive := true } NodeEvent.recvFragment) :=
  ⟨fun h => absurd h (by decide), by decide,
   nodeStep_leaderFollowInv_characterization.1
     { mode := NodeMode.music, leaderDataActive := true }
     NodeEvent.recvFragment (fun h => absurd h (by decide)) (by decide)⟩

/-- The chunking loop of broadcastLEDData produces exactly the fragments at
start positions 0, 49, 98, 147, 196. -/
theorem broadcastChunks_zero (leds : ℕ → RGB) (bright seq : ℕ) :
    broadcastChunks leds bright seq 0 =
      [broadcastFragment leds bright seq 0,
       broadcastFragment leds bright seq 49,
       broadcastFragment leds bright seq 98,
       broadcastFragment leds bright seq 147,
       broadcastFragment leds bright seq 196] := by
  rw [broadcastChunks, if_pos (by norm_num)]
  rw [broadcastChunks, if_pos (by norm_num)]
  rw [broadcastChunks, if_pos (by norm_num)]
  rw [broadcastChunks, if_pos (by norm_num)]
  rw [broadcastChunks, if_pos (by norm_num)]
  rw [broadcastChunks, if_neg (by norm_num)]

/-- C10: each invocation of the leader broadcast fragments the 200-LED frame
into exactly 5 SyncFrames with (startIndex, count) =
(0,49), (49,49), (98,49), (147,49), (196,4); every fragment has
startIndex ≤ 199 and count in [1,49]; all five share one sequence number
(it is not incremented per fragment); and the sequence counter advances by
exactly 1 modulo 256 between consecutive invocations. -/
theorem broadcastLEDData_fragments (leds : ℕ → RGB) (bright seq : ℕ) :
    ((broadcastLEDData leds bright seq).1.map fun m => (m.startIndex, m.count)) =
      [(0, 49), (49, 49), (98, 49), (147, 49), (196, 4)] ∧
    ((broadcastLEDData leds bright seq).1.map fun m => m.sequenceNum) =
      [seq, seq, seq, seq, seq] ∧
    (broadcastLEDData leds bright seq).1.Forall
      (fun m => m.startIndex ≤ 199 ∧ 1 ≤ m.count ∧ m.count ≤ 49) ∧
    (broadcastLEDData leds bright seq).2 = (seq + 1) % 256 := by
  unfold broadcastLEDData
  rw [broadcastChunks_zero]
  refine ⟨?_, ?_, ?_, rfl⟩ <;> simp [broadcastFragment, List.Forall]

/-- Pointwise characterization of the fragment payload write loop: LED j is
overwritten exactly when it lies in [startIndex, startIndex + n) and below
the buffer length 200, taking its bytes from payload offset
3 * (j - startIndex). -/
theorem writeFragment_apply (msg : LEDSync) (leds : ℕ → RGB) (n j : ℕ) :
    writeFragment msg leds n j =
      if msg.startIndex ≤ j ∧ j < msg.startIndex + n ∧ j < 200 then
        ⟨msg.rgbData ((j - msg.startIndex) * 3), msg.rgbData ((j - msg.startIndex) * 3 + 1),
         msg.rgbData ((j - msg.startIndex) * 3 + 2)⟩
      else leds j := by
  induction n with
  | zero =>
    rw [if_neg (by omega)]
    rfl
  | succ n ih =>
    simp only [writeFragment]
    by_cases hbound : msg.startIndex + n < 200
    · rw [if_pos hbound]
      by_cases hj : j = msg.startIndex + n
      · simp only [if_pos hj]
        rw [if_pos (by omega)]
        have hd : j - msg.startIndex = n := by omega
        rw [hd]
      · simp only [if_neg hj]
        rw [ih]
        by_cases hc : msg.startIndex ≤ j ∧ j < msg.startIndex + n ∧ j < 200
        · rw [if_pos hc, if_pos (by omega)]
        · rw [if_neg hc, if_neg (by omega)]
    · rw [if_neg hbound]
      rw [ih]
      by_cases hc : msg.startIndex ≤ j ∧ j < msg.startIndex + n ∧ j < 200
      · rw [if_pos hc, if_pos (by omega)]
      · rw [if_neg hc, if_neg (by omega)]

/-- Field effects of onDataReceived for a non-Leader node: mode preserved,
payload written, brightness applied immediately, and a flush exactly when
startIndex + count reaches the buffer length. -/
theorem onDataReceived_fields (s : FollowerState) (msg : LEDSync) (now : ℕ)
    (h : isLeaderMode s.mode = false) :
    (onDataReceived s msg now).mode = s.mode ∧
    (onDataReceived s msg now).leds = writeFragment msg s.leds (min msg.count 49) ∧
    (onDataReceived s msg now).brightness = msg.brightness ∧
    (onDataReceived s msg now).flushCount =
      (if 200 ≤ msg.startIndex + msg.count then s.flushCount + 1 else s.flushCount) := by
  simp only [onDataReceived, h, Bool.false_eq_true, if_false]
  split_ifs <;> simp

/-- Net effect of applying one broadcast fragment payload to an LED buffer. -/
theorem applyBroadcastFragment (f leds : ℕ → RGB) (bright seq s0 j : ℕ) :
    writeFragment (broadcastFragment f bright seq s0) leds
        (min (broadcastFragment f bright seq s0).count 49) j =
      if s0 ≤ j ∧ j < s0 + min (min 49 (200 - s0)) 49 ∧ j < 200 then f j else leds j := by
  rw [writeFragment_apply]
  simp only [broadcastFragment]
  by_cases hc : s0 ≤ j ∧ j < s0 + min (min 49 (200 - s0)) 49 ∧ j < 200
  · rw [if_pos hc, if_pos hc]
    have h0 : (j - s0) * 3 % 3 = 0 := by omega
    have h0d : (j - s0) * 3 / 3 = j - s0 := by omega
    have h1 : ((j - s0) * 3 + 1) % 3 = 1 := by omega
    have h1d : ((j - s0) * 3 + 1) / 3 = j - s0 := by omega
    have h2 : ((j - s0) * 3 + 2) % 3 = 2 := by omega
    have h2d : ((j - s0) * 3 + 2) / 3 = j - s0 := by omega
    have hsj : s0 + (j - s0) = j := by omega
    simp [h0, h0d, h1, h1d, h2, h2d, hsj]
  · rw [if_neg hc, if_neg hc]

/-- C3: a non-Leader node that applies, in order, the five fragments one
leader broadcast derives from a source frame ends with its first 200 LEDs
equal to the source frame; its flush counter increases by exactly one; its
brightness equals the broadcast brightness; every fragment application (on a
non-Leader node) applies that fragment's brightness field immediately;
exactly one of the five fragments satisfies the flush trigger
startIndex + count ≥ 200; and a fragment satisfies the trigger exactly when
it contains LED index 199. -/
theorem follower_reconstructs_frame (f : ℕ → RGB) (s : FollowerState) (bright seq now : ℕ)
    (hmode : isLeaderMode s.mode = false) :
    (∀ i, i < 200 →
      ((broadcastLEDData f bright seq).1.foldl (fun st m => onDataReceived st m now) s).leds i
        = f i) ∧
    ((broadcastLEDData f bright seq).1.foldl (fun st m => onDataReceived st m now) s).flushCount
      = s.flushCount + 1 ∧
    ((broadcastLEDData f bright seq).1.foldl (fun st m => onDataReceived st m now) s).brightness
      = bright ∧
    (∀ (st : FollowerState) (m : LEDSync), isLeaderMode st.mode = false →
       (onDataReceived st m now).brightness = m.brightness) ∧
    ((broadcastLEDData f bright seq).1.countP
       (fun m => decide (200 ≤ m.startIndex + m.count))) = 1 ∧
    (broadcastLEDData f bright seq).1.Forall
      (fun m => 200 ≤ m.startIndex + m.count ↔
        (m.startIndex ≤ 199 ∧ 199 < m.startIndex + m.count)) := by
  unfold broadcastLEDData
  rw [broadcastChunks_zero]
  simp only [List.foldl_cons, List.foldl_nil]
  obtain ⟨hmo1, hld1, hbr1, hfl1⟩ :=
    onDataReceived_fields s (broadcastFragment f bright seq 0) now hmode
  have hm1 : isLeaderMode (onDataReceived s (broadcastFragment f bright seq 0) now).mode
      = false := by rw [hmo1]; exact hmode
  obtain ⟨hmo2, hld2, hbr2, hfl2⟩ :=
    onDataReceived_fields _ (broadcastFragment f bright seq 49) now hm1
  have hm2 : isLeaderMode (onDataReceived
      (onDataReceived s (broadcastFragment f bright seq 0) now)
      (broadcastFragment f bright seq 49) now).mode = false := by rw [hmo2]; exact hm1
  obtain ⟨hmo3, hld3, hbr3, hfl3⟩ :=
    onDataReceived_fields _ (broadcastFragment f bright seq 98) now hm2
  have hm3 : isLeaderMode (onDataReceived (onDataReceived
      (onDataReceived s (broadcastFragment f bright seq 0) now)
      (broadcastFragment f bright seq 49) now)
      (broadcastFragment f bright seq 98) now).mode = false := by rw [hmo3]; exact hm2
  obtain ⟨hmo4, hld4, hbr4, hfl4⟩ :=
    onDataReceived_fields _ (broadcastFragment f bright seq 147) now hm3
  have hm4 : isLeaderMode (onDataReceived (onDataReceived (onDataReceived
      (onDataReceived s (broadcastFragment f bright seq 0) now)
      (broadcastFragment f bright seq 49) now)
      (broadcastFragment f bright seq 98) now)
      (broadcastFragment f bright seq 147) now).mode = false := by rw [hmo4]; exact hm3
  obtain ⟨hmo5, hld5, hbr5, hfl5⟩ :=
    onDataReceived_fields _ (broadcastFragment f bright seq 196) now hm4
  refine ⟨?_, ?_, ?_, ?_, ?_, ?_⟩
  · intro i hi
    rw [hld5, applyBroadcastFragment, hld4, applyBroadcastFragment,
        hld3, applyBroadcastFragment, hld2, applyBroadcastFragment,
        hld1, applyBroadcastFragment]
    split_ifs <;> first | rfl | omega
  · rw [hfl5, hfl4, hfl3, hfl2, hfl1]
    simp only [broadcastFragment]
    norm_num
  · rw [hbr5]
    simp [broadcastFragment]
  · intro st m h
    exact (onDataReceived_fields st m now h).2.2.1
  · simp [List.countP, List.countP.go, broadcastFragment]
  · simp only [List.Forall, broadcastFragment]
    norm_num

/-- Witness for C3: a standalone Normal-mode follower with a zeroed buffer
flushes exactly once when fed one full broadcast of a constant frame. -/
theorem follower_reconstructs_frame_witness :
    isLeaderMode followerBoot.mode = false ∧
    ((broadcastLEDData (fun _ => ⟨9, 8, 7⟩) 25 3).1.foldl
        (fun st m => onDataReceived st m 1000) followerBoot).flushCount =
      followerBoot.flushCount + 1 :=
  ⟨rfl, (follower_reconstructs_frame (fun _ => ⟨9, 8, 7⟩) followerBoot 25 3 1000 rfl).2.1⟩

/-- C6: per tick, a beat event (timestamp appended, beatDetected set, beat
time recorded) fires exactly on an upward crossing — the tick's music level
is above the threshold while the previous tick's comparison was not;
beatDetected is cleared on every tick whose level is not above the
threshold; and on ticks where the signal remains continuously above the
threshold beatDetected is left unchanged (stays latched) and no timestamp
is appended. -/
theorem beatStep_edge_semantics (s : AudioState) (level threshold : ℚ) (t : ℕ) :
    ((¬ threshold < level) →
       ((beatStep s level threshold t).beatDetected = false ∧
        (beatStep s level threshold t).beatTimes = s.beatTimes ∧
        (beatStep s level threshold t).prevAbove = false)) ∧
    ((threshold < level ∧ s.prevAbove = true) →
       ((beatStep s level threshold t).beatDetected = s.beatDetected ∧
        (beatStep s level threshold t).beatTimes = s.beatTimes ∧
        (beatStep s level threshold t).prevAbove = true)) ∧
    ((threshold < level ∧ s.prevAbove = false) →
       ((beatStep s level threshold t).beatDetected = true ∧
        (beatStep s level threshold t).beatTimes = pushFifo s.beatTimes t ∧
        (beatStep s level threshold t).lastBeatTime = t ∧
        (beatStep s level threshold t).prevAbove = true)) := by
  by_cases hab : threshold < level
  · by_cases hpv : s.prevAbove = false
    · refine ⟨fun h => absurd hab h, fun h => ?_, fun _ => ?_⟩
      · rw [hpv] at h
        exact absurd h.2 (by simp)
      · simp only [beatStep,
          if_pos (show threshold < level ∧ s.prevAbove = false from ⟨hab, hpv⟩)]
        exact ⟨trivial, trivial, trivial, trivial⟩
    · have hneg : ¬(threshold < level ∧ s.prevAbove = false) := fun hc => absurd hc.2 hpv
      refine ⟨fun h => absurd hab h, fun _ => ?_, fun h => absurd h.2 hpv⟩
      simp only [beatStep, if_neg hneg, if_neg (not_not_intro hab)]
      exact ⟨trivial, trivial, trivial⟩
  · have hneg : ¬(threshold < level ∧ s.prevAbove = false) := fun hc => absurd hc.1 hab
    refine ⟨fun _ => ?_, fun h => absurd h.1 hab, fun h => absurd h.1 hab⟩
    simp only [beatStep, if_neg hneg, if_pos hab]
    exact ⟨trivial, trivial, trivial⟩

/-- Witness for C6: an upward crossing from the boot state fires a beat. -/
theorem beatStep_edge_semantics_witness :
    ((1 : ℚ) / 2 < 1 ∧ audioBoot.prevAbove = false) ∧
    ((beatStep audioBoot 1 (1/2) 100).beatDetected = true ∧
     (beatStep audioBoot 1 (1/2) 100).beatTimes = pushFifo audioBoot.beatTimes 100 ∧
     (beatStep audioBoot 1 (1/2) 100).lastBeatTime = 100 ∧
     (beatStep audioBoot 1 (1/2) 100).prevAbove = true) :=
  ⟨⟨by norm_num, rfl⟩,
   (beatStep_edge_semantics audioBoot 1 (1/2) 100).2.2 ⟨by norm_num, rfl⟩⟩

/-- Membership through sorted insertion. -/
theorem mem_insertSorted (x y : ℕ) (l : List ℕ) :
    y ∈ insertSorted x l ↔ y = x ∨ y ∈ l := by
  induction l with
  | nil => simp [insertSorted]
  | cons z zs ih =>
    simp only [insertSorted]
    split_ifs with h
    · simp only [List.mem_cons]
    · simp only [List.mem_cons, ih]
      tauto

/-- Sorting the interval buffer preserves membership. -/
theorem mem_sortIntervals (y : ℕ) (l : List ℕ) : y ∈ sortIntervals l ↔ y ∈ l := by
  induction l with
  | nil => simp [sortIntervals]
  | cons z zs ih =>
    show y ∈ insertSorted z (sortIntervals zs) ↔ y ∈ z :: zs
    rw [mem_insertSorted, ih]
    simp [List.mem_cons]

/-- Sorted insertion grows the length by one. -/
theorem length_insertSorted (x : ℕ) (l : List ℕ) :
    (insertSorted x l).length = l.length + 1 := by
  induction l with
  | nil => rfl
  | cons z zs ih =>
    simp only [insertSorted]
    split_ifs with h <;> simp [ih]

/-- Sorting preserves the length. -/
theorem length_sortIntervals (l : List ℕ) : (sortIntervals l).length = l.length := by
  induction l with
  | nil => rfl
  | cons z zs ih =>
    show (insertSorted z (sortIntervals zs)).length = (z :: zs).length
    rw [length_insertSorted, ih]
    simp

/-- With every recorded interval inside the [150, 2000] ms prefilter range,
the median (including the even-count truncated mean) lies in the same
range. -/
theorem getMedianInterval_bounds (l : List ℕ) (hne : l.length ≠ 0)
    (hlo : ∀ x ∈ l, 150 ≤ x ∧ x ≤ 2000) :
    150 ≤ getMedianInterval l ∧ getMedianInterval l ≤ 2000 := by
  have hlen : (sortIntervals l).length = l.length := length_sortIntervals l
  have helem : ∀ k, k < l.length →
      150 ≤ (sortIntervals l).getD k 0 ∧ (sortIntervals l).getD k 0 ≤ 2000 := by
    intro k hk
    have hk2 : k < (sortIntervals l).length := by omega
    rw [List.getD_eq_getElem _ _ hk2]
    exact hlo _ ((mem_sortIntervals _ l).mp (List.getElem_mem hk2))
  unfold getMedianInterval
  rw [if_neg hne]
  split_ifs with hpar
  · have h1 := helem (l.length / 2 - 1) (by omega)
    have h2 := helem (l.length / 2) (by omega)
    omega
  · exact helem (l.length / 2) (by omega)

/-- The window estimate is either 0, or positive and at most 600: the median
path yields 60000/median ∈ [30, 400] for prefiltered intervals, and the
coarse path yields count * 12 ≤ 600 for at most 50 stored timestamps. -/
theorem bpmWindowEstimate_bounds (s : AudioState) (now : ℕ)
    (hint : ∀ x ∈ s.beatIntervals, 150 ≤ x ∧ x ≤ 2000)
    (hcap : s.beatTimes.length ≤ 50) :
    0 ≤ bpmWindowEstimate s now ∧ bpmWindowEstimate s now ≤ 600 := by
  unfold bpmWindowEstimate
  split_ifs with h3 hm hc
  · obtain ⟨h1, h2⟩ := getMedianInterval_bounds s.beatIntervals (by omega) hint
    have hq1 : (150 : ℚ) ≤ (getMedianInterval s.beatIntervals : ℚ) := by exact_mod_cast h1
    have hq0 : (0 : ℚ) < (getMedianInterval s.beatIntervals : ℚ) := by linarith
    constructor
    · positivity
    · rw [div_le_iff₀ hq0]
      linarith
  · exact ⟨le_refl 0, by norm_num⟩
  · have hcnt : bpmWindowCount s.beatTimes now ≤ 50 := by
      unfold bpmWindowCount
      exact le_trans (List.length_filter_le _ _) hcap
    have hq : ((bpmWindowCount s.beatTimes now : ℚ)) ≤ 50 := by exact_mod_cast hcnt
    have hq0 : (0 : ℚ) ≤ ((bpmWindowCount s.beatTimes now : ℚ)) := by positivity
    rw [show (60000 : ℚ) / 5000 = 12 by norm_num]
    constructor
    · positivity
    · linarith
  · exact ⟨le_refl 0, by norm_num⟩

/-- C1 (amended): after a periodic BPM-window recomputation the running
estimate currentBPM stays within [0, 600] — not [0, 300]: the interval
prefilter [150, 2000] ms allows median estimates up to 60000/150 = 400, and
the coarse path allows up to 50 beats * 12 = 600 — provided the prior value
is in [0, 600], the recorded intervals are prefiltered and at most 50
timestamps are stored; and the freshly computed window estimate (not
currentBPM, which can retain an older nonzero value) is 0 whenever fewer
than 2 window beats and fewer than 3 recorded intervals exist. -/
theorem updateBPM_bounds (s : AudioState) (now : ℕ)
    (hgate : 5000 ≤ now - s.lastBpmMillis)
    (hint : ∀ x ∈ s.beatIntervals, 150 ≤ x ∧ x ≤ 2000)
    (hcap : s.beatTimes.length ≤ 50)
    (hcur0 : 0 ≤ s.currentBPM) (hcur6 : s.currentBPM ≤ 600) :
    (0 ≤ (updateBPM s now).currentBPM ∧ (updateBPM s now).currentBPM ≤ 600) ∧
    (s.beatIntervals.length < 3 → bpmWindowCount s.beatTimes now < 2 →
      bpmWindowEstimate s now = 0) := by
  constructor
  · obtain ⟨he0, he6⟩ := bpmWindowEstimate_bounds s now hint hcap
    unfold updateBPM
    rw [if_pos hgate]
    dsimp only
    split_ifs <;> constructor <;> first | linarith | norm_num
  · intro h1 h2
    unfold bpmWindowEstimate
    rw [if_neg (by omega), if_neg (by omega)]

/-- Witness for C1 at a concrete post-boot state with three prefiltered
intervals. -/
theorem updateBPM_bounds_witness :
    (5000 ≤ 6000 - ({ audioBoot with beatIntervals := [150, 300, 2000] } : AudioState).lastBpmMillis) ∧
    (0 ≤ (updateBPM { audioBoot with beatIntervals := [150, 300, 2000] } 6000).currentBPM ∧
     (updateBPM { audioBoot with beatIntervals := [150, 300, 2000] } 6000).currentBPM ≤ 600) :=
  ⟨by norm_num [audioBoot],
   (updateBPM_bounds { audioBoot with beatIntervals := [150, 300, 2000] } 6000
     (by norm_num [audioBoot]) (by intro x hx; fin_cases hx <;> norm_num)
     (by norm_num [audioBoot]) (by norm_num [audioBoot]) (by norm_num [audioBoot])).1⟩

/-- C1 counterexample: with three recorded 150 ms intervals (the shortest
the prefilter admits) and no beat timestamps in the window, the
recomputation sets currentBPM to 60000/150 = 400 > 300, and does not leave
the estimate at 0 although fewer than 2 qualifying window beats exist. -/
theorem updateBPM_exceeds_300 :
    (updateBPM { audioBoot with beatIntervals := [150, 150, 150] } 5000).currentBPM = 400 ∧
    bpmWindowCount ({ audioBoot with beatIntervals := [150, 150, 150] } : AudioState).beatTimes 5000 = 0 ∧
    ¬ ((updateBPM { audioBoot with beatIntervals := [150, 150, 150] } 5000).currentBPM ≤ 300) := by
  have h : (updateBPM { audioBoot with beatIntervals := [150, 150, 150] } 5000).currentBPM = 400 := by
    norm_num [updateBPM, bpmWindowEstimate, bpmWindowCount, getMedianInterval,
      sortIntervals, insertSorted, audioBoot]
  refine ⟨h, rfl, ?_⟩
  rw [h]
  norm_num

/-- C8 (amended): on a capture-failure tick that does not cross a BPM window
boundary, detectAudioFrame returns with the whole state untouched — so
soundMin, soundMax, musicLevel, audioLevel, the beat-detection flags,
histories and currentBPM are unchanged — but updateAudioLevel still advances
the noise-floor and peak exponential trackers, applying their smoothing to
the retained previous audioLevel. -/
theorem updateAudioLevel_capture_failure (s : AudioState) (now : ℕ) (decayFactor : ℚ)
    (hwin : now - s.lastBpmMillis < 5000) :
    detectAudioFrame s none now = s ∧
    (updateAudioLevel s none now decayFactor).soundMin = s.soundMin ∧
    (updateAudioLevel s none now decayFactor).soundMax = s.soundMax ∧
    (updateAudioLevel s none now decayFactor).musicLevel = s.musicLevel ∧
    (updateAudioLevel s none now decayFactor).audioLevel = s.audioLevel ∧
    (updateAudioLevel s none now decayFactor).prevAbove = s.prevAbove ∧
    (updateAudioLevel s none now decayFactor).beatDetected = s.beatDetected ∧
    (updateAudioLevel s none now decayFactor).beatTimes = s.beatTimes ∧
    (updateAudioLevel s none now decayFactor).beatIntervals = s.beatIntervals ∧
    (updateAudioLevel s none now decayFactor).currentBPM = s.currentBPM ∧
    (updateAudioLevel s none now decayFactor).noiseFloor
      = s.noiseFloor * (7/10) + s.audioLevel * (3/10) ∧
    (updateAudioLevel s none now decayFactor).peakLevel
      = s.peakLevel * (1/2) + s.audioLevel * (1/2) := by
  have h1 : detectAudioFrame s none now = s := rfl
  have h2 : updateBPM s now = s := by
    unfold updateBPM
    rw [if_neg (by omega)]
  unfold updateAudioLevel
  rw [h1, h2]
  dsimp only
  exact ⟨rfl, rfl, rfl, rfl, rfl, rfl, rfl, rfl, rfl, rfl, rfl, rfl⟩

/-- Witness for C8 on the boot state early in the first window. -/
theorem updateAudioLevel_capture_failure_witness :
    (100 - audioBoot.lastBpmMillis < 5000) ∧
    detectAudioFrame audioBoot none 100 = audioBoot ∧
    (updateAudioLevel audioBoot none 100 (1/2)).soundMin = audioBoot.soundMin :=
  ⟨by norm_num [audioBoot],
   (updateAudioLevel_capture_failure audioBoot 100 (1/2) (by norm_num [audioBoot])).1,
   (updateAudioLevel_capture_failure audioBoot 100 (1/2) (by norm_num [audioBoot])).2.1⟩

/-- C8 counterexample: with the boot noise floor 1/100 and a retained
audioLevel of 1/2, a capture-failure tick still moves the noise-floor
tracker to 157/1000 — it is not unchanged. -/
theorem updateAudioLevel_failure_moves_noiseFloor :
    (updateAudioLevel { audioBoot with audioLevel := 1/2 } none 100 (1/2)).noiseFloor
      = 157/1000 ∧
    ¬ ((updateAudioLevel { audioBoot with audioLevel := 1/2 } none 100 (1/2)).noiseFloor
        = ({ audioBoot with audioLevel := 1/2 } : AudioState).noiseFloor) := by
  have h2 : updateBPM ({ audioBoot with audioLevel := 1/2 } : AudioState) 100
      = { audioBoot with audioLevel := 1/2 } := by
    unfold updateBPM
    rw [if_neg (by norm_num [audioBoot])]
  constructor
  · show (updateAudioLevel { audioBoot with audioLevel := 1/2 } none 100 (1/2)).noiseFloor
      = 157/1000
    unfold updateAudioLevel
    rw [show detectAudioFrame { audioBoot with audioLevel := 1/2 } none 100
        = { audioBoot with audioLevel := 1/2 } from rfl, h2]
    norm_num [audioBoot]
  · unfold updateAudioLevel
    rw [show detectAudioFrame { audioBoot with audioLevel := 1/2 } none 100
        = { audioBoot with audioLevel := 1/2 } from rfl, h2]
    norm_num [audioBoot]

/-- C9 (the code evaluated at the failing input): for the WavyFlag state
wavyness = 720, puckeryness = 200, phase = 0 (the initialization with all
random draws 0), at the last LED i = 199 the running arclength s equals the
full normalizer sum, so x = 256 * 19, the second palette index idx2 is 60
and the generator reads flagTable[60], [61] and [62] — one, two and three
bytes past the end of the 60-byte table, refuting the claimed bound
idx2 + 2 < 60. -/
theorem renderEffect03_reads_past_flagTable :
    flagPartial 720 200 0 199 = flagSum 720 200 0 ∧
    (flagIndices 720 200 0 199).1 = 57 ∧
    (flagIndices 720 200 0 199).2 = 60 ∧
    (flagTable.length : ℤ) = 60 ∧
    ¬ ((flagIndices 720 200 0 199).2 + 2 < 60) := by
  refine ⟨rfl, ?_, ?_, by decide, ?_⟩ <;> decide

end M5HeadBand
